import Mathlib

/-!
Shallow embedding of the pixel-transformation core of `src/app.py`
(the "squarify" panel app): `squarify_image` and `add_transparency`,
together with the widget state they read and write.

Pixels are 4-channel bytes (`Fin 256`); the transparency pipeline works on
exact rationals in place of numpy float64 (the code divides by 255.0 and the
observable claims concern the exact values).  Images are a mode tag plus a
list of pixel rows, as in a PIL image converted to a numpy array.
-/

namespace SquarifyApp

/-- PIL image mode: the app only distinguishes images that carry an alpha
channel from those that do not (`image.convert "RGBA"` promotes the latter). -/
inductive Mode where
  | RGB : Mode
  | RGBA : Mode
deriving DecidableEq, Repr

/-- One 4-channel pixel, channels in 0..255 (numpy `ubyte`). For an `RGB`-mode
image the stored alpha is unused (PIL supplies 255 on conversion). -/
structure Px where
  r : Fin 256
  g : Fin 256
  b : Fin 256
  a : Fin 256
deriving DecidableEq, Repr

/-- A decoded raster image: mode, width, and the pixel rows (top row first).
`w` is the declared width; a well-formed image has every row of length `w`. -/
structure Img where
  mode : Mode
  w : ℕ
  rows : List (List Px)
deriving DecidableEq, Repr

/-- Height of an image: the number of pixel rows. -/
def Img.h (im : Img) : ℕ := im.rows.length

/-- Pixel at column `x`, row `y` (out-of-range reads default to a zero pixel;
the code never reads out of range). -/
def Img.pix (im : Img) (x y : ℕ) : Px :=
  (im.rows.getD y []).getD x ⟨0, 0, 0, 0⟩

/-- Every row has the declared width. -/
def Img.wf (im : Img) : Prop := ∀ r ∈ im.rows, r.length = im.w

instance (im : Img) : Decidable im.wf := by
  unfold Img.wf; infer_instance

/-- PIL `image.convert "RGBA"`: an image already carrying alpha is unchanged; an
image without alpha gets every pixel's alpha set to 255 (fully opaque). -/
def convertRGBA (im : Img) : Img :=
  match im.mode with
  | Mode.RGBA => im
  | Mode.RGB =>
      { mode := Mode.RGBA, w := im.w,
        rows := im.rows.map (List.map fun p => ⟨p.r, p.g, p.b, 255⟩) }

/-- PIL `Image.new "RGBA" (w, h) c`: a fresh canvas filled with the constant
pixel `c`. -/
def newRGBA (w h : ℕ) (c : Px) : Img :=
  { mode := Mode.RGBA, w := w, rows := List.replicate h (List.replicate w c) }

/-- PIL `dest.paste (src, (cx, cy))` for an RGBA destination: PIL converts the
pasted image to the destination mode, then overwrites the covered rectangle
pixel-for-pixel, all four channels, no blending. -/
def paste (dest src : Img) (cx cy : ℕ) : Img :=
  let s := convertRGBA src
  { mode := dest.mode, w := dest.w,
    rows := List.ofFn (fun y : Fin dest.h => List.ofFn (fun x : Fin dest.w =>
      if cx ≤ x.val ∧ x.val < cx + s.w ∧ cy ≤ y.val ∧ y.val < cy + s.h then
        s.pix (x.val - cx) (y.val - cy)
      else dest.pix x.val y.val)) }

/-- The failures that can surface from a squarify call. `invalidParameter` is
the spec's error taxonomy entry for a rejected parameter; `resizeError` is an
error raised by the external resize collaborator. -/
inductive Err where
  | invalidParameter : Err
  | resizeError : Err
deriving DecidableEq, Repr

/-- Modelled from the spec: `PIL.Image.resize`, an external collaborator
(spec section 4.1 step 5 and section 6).  It produces an image of exactly the
requested size; resizing to the source's own size returns an unchanged copy
(Pillow's documented same-size early return); a non-positive target size is a
collaborator failure, not a core validation.  The resampling filter is an
implementation-choice quality filter whose per-pixel float arithmetic is
outside this embedding; resampled pixel values are modelled as a plain
deterministic sample and no claim depends on them. -/
def resize (im : Img) (tw th : ℤ) : Except Err Img :=
  if (im.w : ℤ) = tw ∧ (im.h : ℤ) = th then Except.ok im
  else if tw ≤ 0 ∨ th ≤ 0 then Except.error Err.resizeError
  else Except.ok
    { mode := im.mode, w := tw.toNat,
      rows := List.ofFn (fun y : Fin th.toNat => List.ofFn (fun x : Fin tw.toNat =>
        im.pix (x.val * im.w / tw.toNat) (y.val * im.h / th.toNat))) }

/-- A 3-channel colour, as held by the colour picker widget.  The widget
stores the hex string `"#rrggbb"`; formatting a 0..255 triple with
`"#\x7b:02x\x7d..."` and parsing it back with `ImageColor.getrgb` is the
identity, so the value is modelled as the triple itself. -/
structure Col where
  r : Fin 256
  g : Fin 256
  b : Fin 256
deriving DecidableEq, Repr

/-- The ambient widget state read and written by the two core functions:
the input/output card titles, the "Max image size" static text (`none` is its
initial "N/A"), the desired-size spinner, the colour picker, and the two
checkbox values. -/
structure WidgetState where
  inputTitle : String
  outputTitle : String
  maxText : Option ℕ
  spinner : ℤ
  picker : Col
  detect : Bool
  matchV : Bool
deriving DecidableEq, Repr

/-- Lines 92-96 of `app.py`: the transparent square canvas of side
`max_size = max width height`, with the source pasted at the centred
(floor-division) offset. -/
def padded (image : Img) : Img :=
  let width := image.w
  let height := image.h
  let max_size := max width height
  let center_x := (max_size - width) / 2
  let center_y := (max_size - height) / 2
  paste (newRGBA max_size max_size ⟨255, 255, 255, 0⟩) image center_x center_y

/-- The function `squarify_image` (lines 79-97 of `app.py`) as a state transformer: it
updates the input card title, the max-size static text, possibly the spinner
(clamping the desired size to the longer source dimension), and the output
card title, then pastes the image on the transparent square canvas and
resizes it to the desired size. -/
def squarify_image (image : Img) (st : WidgetState) :
    Except Err Img × WidgetState :=
  let width := image.w
  let height := image.h
  let st1 := { st with inputTitle := s!"Input resolution: {width}x{height}" }
  let max_size := max width height
  let st2 := { st1 with maxText := some max_size }
  let clamped := (max_size : ℤ) < st2.spinner
  let desired_size := if clamped then (max_size : ℤ) else st2.spinner
  let st3 := if clamped then { st2 with spinner := (max_size : ℤ) } else st2
  let st4 := { st3 with outputTitle := s!"Output resolution: {desired_size}x{desired_size}" }
  (resize (padded image) desired_size desired_size, st4)

/-- The effective output side length computed by `squarify_image`:
the spinner value, clamped down to `max width height`. -/
def effSize (image : Img) (st : WidgetState) : ℤ :=
  if (max image.w image.h : ℤ) < st.spinner then (max image.w image.h : ℤ)
  else st.spinner

/-! ## The transparency pipeline (`add_transparency`, lines 100-141)

numpy float64 arithmetic is modelled by exact rationals: every value the
pipeline manipulates is a channel divided by 255. -/

/-- One pixel of the normalized array `np.array (image.convert "RGBA") / 255.0`. -/
structure QPx where
  r : ℚ
  g : ℚ
  b : ℚ
  a : ℚ
deriving DecidableEq, Repr

/-- A channel scaled into the normalized [0,1] range (division by 255.0). -/
def qn (c : Fin 256) : ℚ := (c.val : ℚ) / 255

/-- Normalize one pixel. -/
def toQ (p : Px) : QPx := ⟨qn p.r, qn p.g, qn p.b, qn p.a⟩

/-- Line 109: `np.array (image.convert "RGBA", dtype=np.ubyte) / 255.0`. -/
def imageArray (im : Img) : List (List QPx) :=
  (convertRGBA im).rows.map (List.map toQ)

/-- numpy `astype int`: truncation toward zero. -/
def truncInt (q : ℚ) : ℤ := if 0 ≤ q then ⌊q⌋ else -⌊-q⌋

/-- numpy `np.ubyte` of an integer: reduction modulo 256. -/
def toF8 (z : ℤ) : Fin 256 :=
  ⟨(z % 256).toNat, by
    have h1 := Int.emod_nonneg z (by norm_num : (256 : ℤ) ≠ 0)
    have h2 := Int.emod_lt_of_pos z (by norm_num : (0 : ℤ) < 256)
    omega⟩

/-- Line 141 per channel: `np.ubyte ((v * 255).astype int)` — scale back to
0..255 and truncate (not round). -/
def chan (q : ℚ) : Fin 256 := toF8 (truncInt (q * 255))

/-- Modelled from the spec: the write-out re-quantization the spec prescribes,
"round, not truncate, to the nearest 0-255 integer" (spec section 4.2,
Output).  Stated only to be compared against the code's `chan`. -/
def chanRoundSpec (q : ℚ) : Fin 256 := toF8 (round (q * 255))

/-- Lines 111-113: the detected background colour, `(image_array[0, 0] *
255).astype int` on the RGB channels of the normalized top-left pixel, then
formatted as `"#rrggbb"` into the picker (format-then-parse is the identity
on 0..255 triples, so the picker just receives the triple). -/
def detectedColor (arr : List (List QPx)) : Col :=
  let p := (arr.getD 0 []).getD 0 ⟨0, 0, 0, 0⟩
  ⟨toF8 (truncInt (p.r * 255)), toF8 (truncInt (p.g * 255)), toF8 (truncInt (p.b * 255))⟩

/-- Line 120: `np.array (ImageColor.getrgb color_picker.value) / 255.0`. -/
structure QCol where
  r : ℚ
  g : ℚ
  b : ℚ
deriving DecidableEq, Repr

/-- Normalize the picker colour. -/
def pickerQ (c : Col) : QCol := ⟨qn c.r, qn c.g, qn c.b⟩

/-- Line 121 tests `if match_checkbox:` — the Panel `Checkbox` widget object
itself, not `match_checkbox.value`.  A Panel widget defines no custom truth
conversion, so the object is truthy and the test is `true` regardless of the
checkbox value (every other checkbox read in the file uses `.value`). -/
def match_checkbox_truthy : Bool := true

/-- Lines 122-125, the exact-match branch: copy the array, compare the three
RGB channels of every pixel against the target colour, and set alpha to 0
where all three match or the source alpha is already 0, else to 1. -/
def exactRows (arr : List (List QPx)) (t : QCol) : List (List QPx) :=
  arr.map (List.map fun p =>
    ⟨p.r, p.g, p.b,
      if (p.r = t.r ∧ p.g = t.g ∧ p.b = t.b) ∨ p.a = 0 then 0 else 1⟩)

/-- Lines 127-139, the fuzzy branch: a fresh zero array receives the three
RGB channels unchanged and, as alpha, the pixelwise maximum of the per-channel
absolute distances to the target colour (the source alpha is discarded). -/
def fuzzyRows (arr : List (List QPx)) (t : QCol) : List (List QPx) :=
  arr.map (List.map fun p =>
    ⟨p.r, p.g, p.b, max |p.r - t.r| (max |p.g - t.g| |p.b - t.b|)⟩)

/-- Line 141: `Image.fromarray (np.ubyte ((image_array_rgba * 255).astype int))`. -/
def writeRows (arr : List (List QPx)) : List (List Px) :=
  arr.map (List.map fun p => ⟨chan p.r, chan p.g, chan p.b, chan p.a⟩)

/-- The function `add_transparency` (lines 100-141) as a state transformer: normalize the
RGBA-converted image, optionally auto-detect the background colour into the
picker, read the target colour back from the picker, branch on the (always
truthy) `match_checkbox` object, and write the result back out as bytes. -/
def add_transparency (image : Img) (st : WidgetState) : Img × WidgetState :=
  let image_array := imageArray image
  let st1 := if st.detect then { st with picker := detectedColor image_array } else st
  let target_color := pickerQ st1.picker
  let out :=
    if match_checkbox_truthy then exactRows image_array target_color
    else fuzzyRows image_array target_color
  ({ mode := Mode.RGBA, w := image.w, rows := writeRows out }, st1)

/-- The colour the keyer actually keys on: the auto-detected top-left colour
when the detect checkbox is set, else the picker colour as supplied. -/
def usedColor (image : Img) (st : WidgetState) : Col :=
  if st.detect then detectedColor (imageArray image) else st.picker

/-! ## Helper lemmas -/

theorem qn_mul_255 (c : Fin 256) : qn c * 255 = (c.val : ℚ) := by
  unfold qn
  rw [div_mul_cancel₀]
  norm_num

theorem truncInt_natCast (n : ℕ) : truncInt (n : ℚ) = (n : ℤ) := by
  unfold truncInt
  rw [if_pos (by positivity)]
  exact_mod_cast Int.floor_natCast n

theorem toF8_natCast (n : ℕ) (h : n < 256) : toF8 (n : ℤ) = ⟨n, h⟩ := by
  unfold toF8
  apply Fin.ext
  simp only
  omega

theorem chan_qn (c : Fin 256) : chan (qn c) = c := by
  unfold chan
  rw [qn_mul_255, truncInt_natCast, toF8_natCast c.val c.isLt]

theorem qn_inj {a b : Fin 256} : qn a = qn b ↔ a = b := by
  constructor
  · intro h
    have h2 : (a.val : ℚ) = (b.val : ℚ) := by
      rw [← qn_mul_255 a, ← qn_mul_255 b, h]
    exact Fin.val_injective (Nat.cast_injective h2)
  · intro h
    rw [h]

theorem qn_eq_zero {a : Fin 256} : qn a = 0 ↔ a = 0 := by
  have h : qn (0 : Fin 256) = 0 := by
    show ((0 : Fin 256).val : ℚ) / 255 = 0
    norm_num
  constructor
  · intro hq
    exact qn_inj.mp (by rw [hq, h])
  · intro hq
    rw [hq, h]

theorem chan_zero : chan 0 = 0 := by
  have h : (0 : ℚ) = qn 0 := by
    show (0 : ℚ) = ((0 : Fin 256).val : ℚ) / 255
    norm_num
  rw [h, chan_qn]

theorem chan_one : chan 1 = 255 := by
  have h : (1 : ℚ) = qn 255 := by
    show (1 : ℚ) = ((255 : Fin 256).val : ℚ) / 255
    rw [show (255 : Fin 256).val = 255 from rfl]
    norm_num
  rw [h, chan_qn]

theorem chanRoundSpec_qn (c : Fin 256) : chanRoundSpec (qn c) = c := by
  unfold chanRoundSpec
  rw [qn_mul_255]
  rw [show round ((c.val : ℚ)) = (c.val : ℤ) from by exact_mod_cast round_natCast c.val]
  exact toF8_natCast c.val c.isLt

theorem convertRGBA_mode (im : Img) : (convertRGBA im).mode = Mode.RGBA := by
  cases im with
  | mk m w rows => cases m <;> rfl

theorem convertRGBA_w (im : Img) : (convertRGBA im).w = im.w := by
  cases im with
  | mk m w rows => cases m <;> rfl

theorem convertRGBA_h (im : Img) : (convertRGBA im).h = im.h := by
  cases im with
  | mk m w rows => cases m <;> simp [convertRGBA, Img.h]

theorem convertRGBA_of_rgba {im : Img} (h : im.mode = Mode.RGBA) :
    convertRGBA im = im := by
  cases im with
  | mk m w rows =>
      cases m
      · exact absurd h (by simp)
      · rfl

theorem convertRGBA_wf {im : Img} (h : im.wf) : (convertRGBA im).wf := by
  cases im with
  | mk m w rows =>
      cases m
      · intro r hr
        simp only [convertRGBA, List.mem_map] at hr
        obtain ⟨r0, hr0, rfl⟩ := hr
        simpa [convertRGBA] using h r0 hr0
      · exact h

theorem paste_mode (dest src : Img) (cx cy : ℕ) :
    (paste dest src cx cy).mode = dest.mode := rfl

theorem paste_w (dest src : Img) (cx cy : ℕ) :
    (paste dest src cx cy).w = dest.w := rfl

theorem paste_h (dest src : Img) (cx cy : ℕ) :
    (paste dest src cx cy).h = dest.h := by
  simp [paste, Img.h]

theorem paste_wf (dest src : Img) (cx cy : ℕ) : (paste dest src cx cy).wf := by
  intro r hr
  simp only [paste, List.mem_ofFn] at hr
  obtain ⟨i, rfl⟩ := hr
  simp [paste]

theorem getD_ofFn {α : Type} {n : ℕ} (f : Fin n → α) (d : α) (i : ℕ)
    (h : i < n) : (List.ofFn f).getD i d = f ⟨i, h⟩ := by
  rw [List.getD_eq_getElem _ _ (by simpa using h), List.getElem_ofFn]

theorem getD_replicate {α : Type} (n : ℕ) (a d : α) (i : ℕ) (h : i < n) :
    (List.replicate n a).getD i d = a := by
  rw [List.getD_eq_getElem _ _ (by simpa using h), List.getElem_replicate]

theorem paste_pix (dest src : Img) (cx cy x y : ℕ)
    (hx : x < dest.w) (hy : y < dest.h) :
    (paste dest src cx cy).pix x y =
      (if cx ≤ x ∧ x < cx + (convertRGBA src).w ∧ cy ≤ y ∧ y < cy + (convertRGBA src).h
       then (convertRGBA src).pix (x - cx) (y - cy)
       else dest.pix x y) := by
  unfold paste Img.pix
  simp only
  rw [getD_ofFn _ _ y hy]
  simp only
  rw [getD_ofFn _ _ x hx]

theorem newRGBA_pix (w h : ℕ) (c : Px) (x y : ℕ) (hx : x < w) (hy : y < h) :
    (newRGBA w h c).pix x y = c := by
  unfold newRGBA Img.pix
  simp only
  rw [getD_replicate _ _ _ y hy, getD_replicate _ _ _ x hx]

theorem padded_mode (im : Img) : (padded im).mode = Mode.RGBA := rfl

theorem padded_w (im : Img) : (padded im).w = max im.w im.h := rfl

theorem padded_h (im : Img) : (padded im).h = max im.w im.h := by
  unfold padded
  rw [paste_h]
  simp [newRGBA, Img.h]

theorem padded_wf (im : Img) : (padded im).wf := paste_wf _ _ _ _

theorem resize_ok_shape {im : Img} {t : ℤ} {o : Img} (hwf : im.wf)
    (h : resize im t t = Except.ok o) :
    o.mode = im.mode ∧ (o.w : ℤ) = t ∧ o.h = o.w ∧ o.wf := by
  unfold resize at h
  by_cases h1 : (im.w : ℤ) = t ∧ (im.h : ℤ) = t
  · rw [if_pos h1] at h
    simp only [Except.ok.injEq] at h
    subst h
    exact ⟨rfl, h1.1, by exact_mod_cast h1.2.trans h1.1.symm, hwf⟩
  · rw [if_neg h1] at h
    by_cases h2 : t ≤ 0 ∨ t ≤ 0
    · rw [if_pos h2] at h
      simp at h
    · rw [if_neg h2] at h
      push_neg at h2
      simp only [Except.ok.injEq] at h
      subst h
      refine ⟨rfl, ?_, ?_, ?_⟩
      · simpa using Int.toNat_of_nonneg (le_of_lt h2.1)
      · simp [Img.h]
      · intro r hr
        simp only [List.mem_ofFn] at hr
        obtain ⟨i, rfl⟩ := hr
        simp

theorem newRGBA_h (w h : ℕ) (c : Px) : (newRGBA w h c).h = h := by
  simp [newRGBA, Img.h]

theorem paste_full {o : Img} (hm : o.mode = Mode.RGBA) (hh : o.h = o.w)
    (hwf : o.wf) :
    paste (newRGBA o.w o.w ⟨255, 255, 255, 0⟩) o 0 0 = o := by
  obtain ⟨m, w, rows⟩ := o
  simp only [Img.h] at hh
  simp only [Img.wf] at hwf
  obtain rfl : m = Mode.RGBA := hm
  unfold paste newRGBA convertRGBA
  simp only [Img.mk.injEq]
  refine ⟨trivial, trivial, ?_⟩
  apply List.ext_getElem
  · simp [Img.h, hh]
  · intro y h1 h2
    rw [List.getElem_ofFn]
    apply List.ext_getElem
    · simp [hwf rows[y] (List.getElem_mem h2)]
    · intro x hx1 hx2
      rw [List.getElem_ofFn]
      have hxw : x < w := by
        have := hwf rows[y] (List.getElem_mem h2)
        omega
      have hyr : y < rows.length := h2
      rw [if_pos ?_]
      · simp only [Nat.sub_zero, Img.pix]
        rw [List.getD_eq_getElem _ _ hyr, List.getD_eq_getElem _ _ hx2]
      · refine ⟨Nat.zero_le _, ?_, Nat.zero_le _, ?_⟩
        · simpa using hxw
        · simpa [Img.h, hh] using hyr

theorem padded_of_square {o : Img} (hm : o.mode = Mode.RGBA) (hh : o.h = o.w)
    (hwf : o.wf) : padded o = o := by
  unfold padded
  simp only [hh, max_self, Nat.sub_self, Nat.zero_div]
  exact paste_full hm hh hwf

theorem resize_pos_ok (im : Img) {t : ℤ} (ht : 0 < t) :
    ∃ o, resize im t t = Except.ok o ∧ (o.w : ℤ) = t ∧ (o.h : ℤ) = t := by
  unfold resize
  by_cases h1 : (im.w : ℤ) = t ∧ (im.h : ℤ) = t
  · exact ⟨im, by rw [if_pos h1], h1.1, h1.2⟩
  · rw [if_neg h1, if_neg (by omega)]
    refine ⟨_, rfl, ?_, ?_⟩
    · simpa using Int.toNat_of_nonneg ht.le
    · simp [Img.h, Int.toNat_of_nonneg ht.le]

theorem squarify_image_eq (im : Img) (st : WidgetState) :
    (squarify_image im st).1 =
      resize (padded im) (effSize im st) (effSize im st) ∧
    (squarify_image im st).2.spinner = effSize im st := by
  unfold squarify_image effSize
  by_cases hc : (max im.w im.h : ℤ) < st.spinner <;> simp [hc]

/-! ## Claim theorems: the Squarifier -/

/-- C5: for every valid image and every positive requested size, the
effective side computed by `squarify_image` is the requested size when that
is at most `max width height` and `max width height` otherwise, it never
exceeds `max width height`, and the call succeeds with a square image of
exactly that side. -/
theorem squarify_effective_size (im : Img) (st : WidgetState)
    (hw : 0 < im.w) (hh : 0 < im.h) (hs : 0 < st.spinner) :
    effSize im st =
      (if st.spinner ≤ (max im.w im.h : ℤ) then st.spinner
       else (max im.w im.h : ℤ)) ∧
    effSize im st ≤ (max im.w im.h : ℤ) ∧
    ∃ o, (squarify_image im st).1 = Except.ok o ∧
      (o.w : ℤ) = effSize im st ∧ (o.h : ℤ) = effSize im st := by
  have hm : (0 : ℤ) < (max im.w im.h : ℤ) := by
    have h0 : 0 < max im.w im.h := lt_max_of_lt_left hw
    exact_mod_cast h0
  refine ⟨?_, ?_, ?_⟩
  · unfold effSize
    by_cases hc : (max im.w im.h : ℤ) < st.spinner
    · rw [if_pos hc, if_neg (not_le.mpr hc)]
    · rw [if_neg hc, if_pos (not_lt.mp hc)]
  · unfold effSize
    split_ifs <;> omega
  · have he : 0 < effSize im st := by
      unfold effSize
      split_ifs <;> omega
    obtain ⟨o, ho, hw2, hh2⟩ := resize_pos_ok (padded im) he
    exact ⟨o, by rw [(squarify_image_eq im st).1, ho], hw2, hh2⟩

/-- Concrete 2x1 two-pixel RGBA image used by the squarifier witnesses. -/
def imTwoOne : Img :=
  { mode := Mode.RGBA, w := 2,
    rows := [[⟨10, 20, 30, 40⟩, ⟨50, 60, 70, 80⟩]] }

/-- Widget state with spinner 5 used by the squarifier witnesses. -/
def stFive : WidgetState :=
  { inputTitle := "Input resolution: N/A", outputTitle := "Output resolution: N/A",
    maxText := none, spinner := 5, picker := ⟨255, 255, 255⟩,
    detect := false, matchV := false }

/-- Witness for C5 at the 2x1 image with requested size 5 (clamped to 2). -/
theorem squarify_effective_size_witness :
    0 < imTwoOne.w ∧ 0 < imTwoOne.h ∧ 0 < stFive.spinner ∧
    (effSize imTwoOne stFive =
      (if stFive.spinner ≤ (max imTwoOne.w imTwoOne.h : ℤ) then stFive.spinner
       else (max imTwoOne.w imTwoOne.h : ℤ)) ∧
    effSize imTwoOne stFive ≤ (max imTwoOne.w imTwoOne.h : ℤ) ∧
    ∃ o, (squarify_image imTwoOne stFive).1 = Except.ok o ∧
      (o.w : ℤ) = effSize imTwoOne stFive ∧
      (o.h : ℤ) = effSize imTwoOne stFive) :=
  ⟨by decide, by decide, by decide,
    squarify_effective_size imTwoOne stFive (by decide) (by decide) (by decide)⟩

/-- C7: `squarify_image` builds an S-by-S canvas with S the longer source
dimension, fully transparent (alpha 0 everywhere), and pastes the
RGBA-converted source pixel-for-pixel (all four channels, a straight
overwrite) at the floor-division centring offset; an RGBA source is pasted
unchanged, so its alpha survives. -/
theorem squarify_canvas_centering (im : Img) (x y : ℕ)
    (hx : x < max im.w im.h) (hy : y < max im.w im.h) :
    (padded im).w = max im.w im.h ∧
    (padded im).h = max im.w im.h ∧
    ((newRGBA (max im.w im.h) (max im.w im.h) ⟨255, 255, 255, 0⟩).pix x y).a = 0 ∧
    (im.mode = Mode.RGBA → convertRGBA im = im) ∧
    (padded im).pix x y =
      (if (max im.w im.h - im.w) / 2 ≤ x ∧
          x < (max im.w im.h - im.w) / 2 + im.w ∧
          (max im.w im.h - im.h) / 2 ≤ y ∧
          y < (max im.w im.h - im.h) / 2 + im.h
       then (convertRGBA im).pix (x - (max im.w im.h - im.w) / 2)
              (y - (max im.w im.h - im.h) / 2)
       else ⟨255, 255, 255, 0⟩) := by
  refine ⟨padded_w im, padded_h im, ?_, fun h => convertRGBA_of_rgba h, ?_⟩
  · rw [newRGBA_pix _ _ _ _ _ hx hy]
  · unfold padded
    rw [paste_pix _ _ _ _ _ _ hx (by rw [newRGBA_h]; exact hy)]
    rw [convertRGBA_w, convertRGBA_h]
    congr 1
    rw [newRGBA_pix _ _ _ _ _ hx hy]

/-- Witness for C7 at the 2x1 image, pixel (1, 0). -/
theorem squarify_canvas_centering_witness :
    1 < max imTwoOne.w imTwoOne.h ∧ 0 < max imTwoOne.w imTwoOne.h ∧
    ((padded imTwoOne).w = max imTwoOne.w imTwoOne.h ∧
     (padded imTwoOne).h = max imTwoOne.w imTwoOne.h ∧
     ((newRGBA (max imTwoOne.w imTwoOne.h) (max imTwoOne.w imTwoOne.h)
        ⟨255, 255, 255, 0⟩).pix 1 0).a = 0 ∧
     (imTwoOne.mode = Mode.RGBA → convertRGBA imTwoOne = imTwoOne) ∧
     (padded imTwoOne).pix 1 0 =
       (if (max imTwoOne.w imTwoOne.h - imTwoOne.w) / 2 ≤ 1 ∧
           1 < (max imTwoOne.w imTwoOne.h - imTwoOne.w) / 2 + imTwoOne.w ∧
           (max imTwoOne.w imTwoOne.h - imTwoOne.h) / 2 ≤ 0 ∧
           0 < (max imTwoOne.w imTwoOne.h - imTwoOne.h) / 2 + imTwoOne.h
        then (convertRGBA imTwoOne).pix
               (1 - (max imTwoOne.w imTwoOne.h - imTwoOne.w) / 2)
               (0 - (max imTwoOne.w imTwoOne.h - imTwoOne.h) / 2)
        else ⟨255, 255, 255, 0⟩)) :=
  ⟨by decide, by decide,
    squarify_canvas_centering imTwoOne 1 0 (by decide) (by decide)⟩

/-- C9: if `squarify_image` succeeds, feeding its output image together with
its output widget state back into `squarify_image` returns the image
unchanged: the re-run sees an already-square image whose side equals the
spinner value, pastes it at offset (0,0) over a fully covered canvas, and
resizing at the same size is a copy. -/
theorem squarify_idempotent (im : Img) (st : WidgetState) (o : Img)
    (h : (squarify_image im st).1 = Except.ok o) :
    (squarify_image o (squarify_image im st).2).1 = Except.ok o := by
  obtain ⟨heq, hsp⟩ := squarify_image_eq im st
  rw [heq] at h
  obtain ⟨hm, hw, hh, hwf⟩ := resize_ok_shape (padded_wf im) h
  rw [padded_mode] at hm
  obtain ⟨heq2, _⟩ := squarify_image_eq o (squarify_image im st).2
  rw [heq2]
  have hsp2 : (squarify_image im st).2.spinner = (o.w : ℤ) := by rw [hsp, ← hw]
  have heff : effSize o (squarify_image im st).2 = (o.w : ℤ) := by
    unfold effSize
    rw [hsp2, hh, max_self]
    simp
  rw [heff, padded_of_square hm hh hwf]
  unfold resize
  rw [if_pos ⟨rfl, by exact_mod_cast hh⟩]

/-- Witness for C9 at the 2x1 image with requested size 5: the first call
clamps to side 2 and returns the padded canvas itself, and re-squarifying
that output is the identity. -/
theorem squarify_idempotent_witness :
    (squarify_image imTwoOne stFive).1 = Except.ok (padded imTwoOne) ∧
    (squarify_image (padded imTwoOne) (squarify_image imTwoOne stFive).2).1 =
      Except.ok (padded imTwoOne) :=
  ⟨by rfl, squarify_idempotent imTwoOne stFive (padded imTwoOne) (by rfl)⟩

/-! ## Helper lemmas for the colour keyer -/

theorem add_transparency_picker (im : Img) (st : WidgetState) :
    (add_transparency im st).2.picker = usedColor im st := by
  unfold add_transparency usedColor
  by_cases hd : st.detect <;> simp [hd]

theorem add_transparency_img (im : Img) (st : WidgetState) :
    (add_transparency im st).1 =
      { mode := Mode.RGBA, w := im.w,
        rows := writeRows (exactRows (imageArray im) (pickerQ (usedColor im st))) } := by
  unfold add_transparency usedColor match_checkbox_truthy
  by_cases hd : st.detect <;> simp [hd]

theorem getD_mapmap {α β : Type} (f : α → β) (dα : α) (dβ : β)
    (rows : List (List α)) (x y : ℕ)
    (hy : y < rows.length) (hx : x < (rows.getD y []).length) :
    ((rows.map (List.map f)).getD y []).getD x dβ =
      f ((rows.getD y []).getD x dα) := by
  have h1 : (rows.map (List.map f)).getD y [] = List.map f (rows.getD y []) := by
    rw [List.getD_eq_getElem _ _ (by simpa using hy), List.getElem_map,
        List.getD_eq_getElem rows _ hy]
  rw [h1, List.getD_eq_getElem _ _ (by simpa using hx), List.getElem_map,
      List.getD_eq_getElem _ _ hx]

theorem getD_mapmap_len {α β : Type} (f : α → β) (rows : List (List α)) (y : ℕ)
    (hy : y < rows.length) :
    ((rows.map (List.map f)).getD y []).length = (rows.getD y []).length := by
  rw [List.getD_eq_getElem _ _ (by simpa using hy), List.getElem_map,
      List.length_map, List.getD_eq_getElem _ _ hy]

theorem row_len {im : Img} (hwf : im.wf) {y : ℕ} (hy : y < im.h) :
    (im.rows.getD y []).length = im.w := by
  rw [List.getD_eq_getElem _ _ hy]
  exact hwf _ (List.getElem_mem hy)

theorem convertRGBA_rgb_channels (im : Img) (hwf : im.wf) (x y : ℕ)
    (hx : x < im.w) (hy : y < im.h) :
    ((convertRGBA im).pix x y).r = (im.pix x y).r ∧
    ((convertRGBA im).pix x y).g = (im.pix x y).g ∧
    ((convertRGBA im).pix x y).b = (im.pix x y).b := by
  obtain ⟨m, w, rows⟩ := im
  cases m
  · unfold convertRGBA Img.pix
    simp only
    rw [getD_mapmap (fun p : Px => (⟨p.r, p.g, p.b, 255⟩ : Px)) ⟨0, 0, 0, 0⟩
          ⟨0, 0, 0, 0⟩ rows x y hy (by rw [row_len hwf hy]; exact hx)]
    exact ⟨rfl, rfl, rfl⟩
  · rw [convertRGBA_of_rgba rfl]
    exact ⟨rfl, rfl, rfl⟩

theorem convertRGBA_alpha_rgb (im : Img) (hwf : im.wf) (x y : ℕ)
    (hmode : im.mode = Mode.RGB) (hx : x < im.w) (hy : y < im.h) :
    ((convertRGBA im).pix x y).a = 255 := by
  obtain ⟨m, w, rows⟩ := im
  obtain rfl : m = Mode.RGB := hmode
  unfold convertRGBA Img.pix
  simp only
  rw [getD_mapmap (fun p : Px => (⟨p.r, p.g, p.b, 255⟩ : Px)) ⟨0, 0, 0, 0⟩
        ⟨0, 0, 0, 0⟩ rows x y hy (by rw [row_len hwf hy]; exact hx)]

theorem add_transparency_pix (im : Img) (st : WidgetState) (x y : ℕ)
    (hwf : im.wf) (hx : x < im.w) (hy : y < im.h) :
    (add_transparency im st).1.pix x y =
      ⟨((convertRGBA im).pix x y).r, ((convertRGBA im).pix x y).g,
       ((convertRGBA im).pix x y).b,
       if (((convertRGBA im).pix x y).r = (usedColor im st).r ∧
           ((convertRGBA im).pix x y).g = (usedColor im st).g ∧
           ((convertRGBA im).pix x y).b = (usedColor im st).b) ∨
          ((convertRGBA im).pix x y).a = 0
       then 0 else 255⟩ := by
  have hwfc : (convertRGBA im).wf := convertRGBA_wf hwf
  have hyc : y < (convertRGBA im).h := by
    rw [convertRGBA_h]
    exact hy
  have hxc : x < ((convertRGBA im).rows.getD y []).length := by
    rw [row_len hwfc hyc, convertRGBA_w]
    exact hx
  have hyA : y < (imageArray im).length := by
    simpa [imageArray] using hyc
  have hxA : x < ((imageArray im).getD y []).length := by
    unfold imageArray
    rw [getD_mapmap_len _ _ _ hyc]
    exact hxc
  have hyE : y < (exactRows (imageArray im) (pickerQ (usedColor im st))).length := by
    simpa [exactRows] using hyA
  have hxE : x <
      ((exactRows (imageArray im) (pickerQ (usedColor im st))).getD y []).length := by
    unfold exactRows
    rw [getD_mapmap_len _ _ _ hyA]
    exact hxA
  rw [add_transparency_img]
  unfold Img.pix
  simp only
  unfold writeRows
  rw [getD_mapmap _ ⟨0, 0, 0, 0⟩ _ _ x y hyE hxE]
  unfold exactRows
  rw [getD_mapmap _ ⟨0, 0, 0, 0⟩ _ _ x y hyA hxA]
  unfold imageArray
  rw [getD_mapmap _ ⟨0, 0, 0, 0⟩ _ _ x y hyc hxc]
  simp only [toQ, chan_qn]
  congr 1
  rw [apply_ite chan, chan_zero, chan_one]
  apply if_congr _ rfl rfl
  simp only [pickerQ, qn_inj, qn_eq_zero]

/-! ## Claim theorems: state effects and validation -/

/-- Concrete 1x1 image used by counterexamples. -/
def imOne : Img := { mode := Mode.RGBA, w := 1, rows := [[⟨10, 20, 30, 40⟩]] }

/-- Concrete 3x3 image used by counterexamples. -/
def imThree : Img :=
  { mode := Mode.RGBA, w := 3,
    rows := [[⟨1, 2, 3, 4⟩, ⟨5, 6, 7, 8⟩, ⟨9, 10, 11, 12⟩],
             [⟨13, 14, 15, 16⟩, ⟨17, 18, 19, 20⟩, ⟨21, 22, 23, 24⟩],
             [⟨25, 26, 27, 28⟩, ⟨29, 30, 31, 32⟩, ⟨33, 34, 35, 36⟩]] }

/-- Widget state with spinner 2. -/
def stTwo : WidgetState :=
  { inputTitle := "", outputTitle := "", maxText := none, spinner := 2,
    picker := ⟨255, 255, 255⟩, detect := false, matchV := false }

/-- Widget state with spinner 3. -/
def stThree : WidgetState :=
  { inputTitle := "", outputTitle := "", maxText := none, spinner := 3,
    picker := ⟨255, 255, 255⟩, detect := false, matchV := false }

/-- Widget state identical to `stTwo` except for the card titles, the max
text, and the match checkbox value. -/
def stTwoB : WidgetState :=
  { inputTitle := "other", outputTitle := "other", maxText := some 7,
    spinner := 2, picker := ⟨255, 255, 255⟩, detect := false, matchV := true }

/-- C4 counterexample: `squarify_image` is not a pure function of its
explicit argument.  On the same 3x3 image, widget states differing only in
the spinner produce different output images (it reads ambient widget state),
and on a 1x1 image with spinner 2 the returned state has a changed spinner
value (it writes ambient widget state, and the write persists into later
invocations). -/
theorem squarify_not_pure :
    (squarify_image imThree stTwo).1.toOption.map Img.w ≠
      (squarify_image imThree stThree).1.toOption.map Img.w ∧
    (squarify_image imOne stTwo).2.spinner ≠ stTwo.spinner := by
  constructor <;> decide

/-- C4 amended: the two core functions are deterministic state transformers,
not pure functions: besides the image they depend only on the widget fields
they read (`squarify_image` on the spinner, `add_transparency` on the picker
and the detect checkbox), and in particular not on the card titles, the max
text, or the match checkbox value. -/
theorem core_state_dependence (im : Img) (s1 s2 : WidgetState)
    (hsp : s1.spinner = s2.spinner) (hpk : s1.picker = s2.picker)
    (hdt : s1.detect = s2.detect) :
    (squarify_image im s1).1 = (squarify_image im s2).1 ∧
    (squarify_image im s1).2.spinner = (squarify_image im s2).2.spinner ∧
    (add_transparency im s1).1 = (add_transparency im s2).1 ∧
    (add_transparency im s1).2.picker = (add_transparency im s2).2.picker := by
  have hu : usedColor im s1 = usedColor im s2 := by
    unfold usedColor
    rw [hdt, hpk]
  refine ⟨?_, ?_, ?_, ?_⟩
  · rw [(squarify_image_eq im s1).1, (squarify_image_eq im s2).1]
    unfold effSize
    rw [hsp]
  · rw [(squarify_image_eq im s1).2, (squarify_image_eq im s2).2]
    unfold effSize
    rw [hsp]
  · rw [add_transparency_img, add_transparency_img, hu]
  · rw [add_transparency_picker, add_transparency_picker, hu]

/-- Witness for the amended C4 at states differing only in titles, max text
and the match checkbox. -/
theorem core_state_dependence_witness :
    stTwo.spinner = stTwoB.spinner ∧ stTwo.picker = stTwoB.picker ∧
    stTwo.detect = stTwoB.detect ∧
    ((squarify_image imOne stTwo).1 = (squarify_image imOne stTwoB).1 ∧
     (squarify_image imOne stTwo).2.spinner =
       (squarify_image imOne stTwoB).2.spinner ∧
     (add_transparency imOne stTwo).1 = (add_transparency imOne stTwoB).1 ∧
     (add_transparency imOne stTwo).2.picker =
       (add_transparency imOne stTwoB).2.picker) :=
  ⟨rfl, rfl, rfl, core_state_dependence imOne stTwo stTwoB rfl rfl rfl⟩

/-- Widget state with spinner 0 (a non-positive desired size). -/
def stZero : WidgetState :=
  { inputTitle := "", outputTitle := "", maxText := none, spinner := 0,
    picker := ⟨255, 255, 255⟩, detect := false, matchV := false }

/-- C8 counterexample: with desired size 0 on a 2x1 image the core performs
no parameter validation and raises no InvalidParameter: it updates the max
text (the work proceeds) and the only failure is the downstream resize
collaborator error. -/
theorem squarify_no_invalid_parameter :
    (squarify_image imTwoOne stZero).1 = Except.error Err.resizeError ∧
    (squarify_image imTwoOne stZero).1 ≠ Except.error Err.invalidParameter ∧
    (squarify_image imTwoOne stZero).2.maxText = some 2 := by
  have h : (squarify_image imTwoOne stZero).1 = Except.error Err.resizeError := by rfl
  refine ⟨h, ?_, by rfl⟩
  rw [h]
  simp

/-- C8 amended: the core does not validate `desiredSize`; a non-positive
value passes the clamp unchanged (no coercion), the widget state is still
updated, and the failure comes from the resize collaborator, not a core
InvalidParameter check. -/
theorem squarify_nonpositive_passthrough (im : Img) (st : WidgetState)
    (hw : 0 < im.w) (hs : st.spinner ≤ 0) :
    effSize im st = st.spinner ∧
    (squarify_image im st).1 = Except.error Err.resizeError ∧
    (squarify_image im st).2.maxText = some (max im.w im.h) := by
  have hm1 : (1 : ℤ) ≤ (max im.w im.h : ℤ) := by
    have h1 : 1 ≤ max im.w im.h := le_max_of_le_left hw
    exact_mod_cast h1
  have hc : ¬((max im.w im.h : ℤ) < st.spinner) := by omega
  refine ⟨?_, ?_, ?_⟩
  · unfold effSize
    rw [if_neg hc]
  · rw [(squarify_image_eq im st).1]
    unfold effSize
    rw [if_neg hc]
    unfold resize
    rw [if_neg ?_, if_pos (Or.inl hs)]
    intro hcontra
    rw [padded_w] at hcontra
    omega
  · have hc2 : ¬(((max im.w im.h : ℕ) : ℤ) < st.spinner) := by
      push_cast
      exact hc
    unfold squarify_image
    simp only
    rw [if_neg hc2]

/-- Witness for the amended C8 at the 2x1 image with spinner 0. -/
theorem squarify_nonpositive_passthrough_witness :
    0 < imTwoOne.w ∧ stZero.spinner ≤ 0 ∧
    (effSize imTwoOne stZero = stZero.spinner ∧
     (squarify_image imTwoOne stZero).1 = Except.error Err.resizeError ∧
     (squarify_image imTwoOne stZero).2.maxText =
       some (max imTwoOne.w imTwoOne.h)) :=
  ⟨by decide, by decide,
    squarify_nonpositive_passthrough imTwoOne stZero (by decide) (by decide)⟩

/-! ## Claim theorems: the colour keyer -/

/-- C2: in exact-match mode the keyer's output pixel keeps the RGB channels
of the RGBA-converted source and replaces alpha with 0 exactly when the
(normalized, equivalently byte-level) RGB triple equals the used colour or
the source alpha is 0, and with 255 (fully opaque on write-out) otherwise —
partial source alpha outside the match is not preserved. -/
theorem exact_mode_output (im : Img) (st : WidgetState) (x y : ℕ)
    (hm : st.matchV = true) (hwf : im.wf) (hx : x < im.w) (hy : y < im.h) :
    (add_transparency im st).1.pix x y =
      ⟨((convertRGBA im).pix x y).r, ((convertRGBA im).pix x y).g,
       ((convertRGBA im).pix x y).b,
       if (((convertRGBA im).pix x y).r = (usedColor im st).r ∧
           ((convertRGBA im).pix x y).g = (usedColor im st).g ∧
           ((convertRGBA im).pix x y).b = (usedColor im st).b) ∨
          ((convertRGBA im).pix x y).a = 0
       then 0 else 255⟩ :=
  add_transparency_pix im st x y hwf hx hy

/-- Concrete 2x1 white/black RGBA image for the exact-mode witness. -/
def imWB : Img :=
  { mode := Mode.RGBA, w := 2,
    rows := [[⟨255, 255, 255, 255⟩, ⟨0, 0, 0, 255⟩]] }

/-- Widget state keying on white with the match checkbox set. -/
def stMatch : WidgetState :=
  { inputTitle := "", outputTitle := "", maxText := none, spinner := 500,
    picker := ⟨255, 255, 255⟩, detect := false, matchV := true }

/-- Witness for C2 at the white pixel of the white/black image. -/
theorem exact_mode_output_witness :
    stMatch.matchV = true ∧ imWB.wf ∧ 0 < imWB.w ∧ 0 < imWB.h ∧
    (add_transparency imWB stMatch).1.pix 0 0 =
      ⟨((convertRGBA imWB).pix 0 0).r, ((convertRGBA imWB).pix 0 0).g,
       ((convertRGBA imWB).pix 0 0).b,
       if (((convertRGBA imWB).pix 0 0).r = (usedColor imWB stMatch).r ∧
           ((convertRGBA imWB).pix 0 0).g = (usedColor imWB stMatch).g ∧
           ((convertRGBA imWB).pix 0 0).b = (usedColor imWB stMatch).b) ∨
          ((convertRGBA imWB).pix 0 0).a = 0
       then 0 else 255⟩ :=
  ⟨rfl, by decide, by decide, by decide,
    exact_mode_output imWB stMatch 0 0 rfl (by decide) (by decide) (by decide)⟩

/-- C10: the keyer converts its input to RGBA first, so an input without an
alpha channel becomes fully opaque (alpha 255 everywhere); consequently in
exact mode the already-transparent disjunct never fires for such an input and
the output alpha is decided by the colour match alone. -/
theorem rgb_input_opaque (im : Img) (st : WidgetState) (x y : ℕ)
    (hmode : im.mode = Mode.RGB) (hwf : im.wf) (hx : x < im.w) (hy : y < im.h) :
    ((convertRGBA im).pix x y).a = 255 ∧
    ((add_transparency im st).1.pix x y).a =
      (if ((convertRGBA im).pix x y).r = (usedColor im st).r ∧
          ((convertRGBA im).pix x y).g = (usedColor im st).g ∧
          ((convertRGBA im).pix x y).b = (usedColor im st).b
       then 0 else 255) := by
  have ha := convertRGBA_alpha_rgb im hwf x y hmode hx hy
  refine ⟨ha, ?_⟩
  rw [add_transparency_pix im st x y hwf hx hy]
  show (if _ then (0 : Fin 256) else 255) = _
  rw [ha]
  simp [show ((255 : Fin 256) = 0) ↔ False from by decide]

/-- Concrete 1x1 RGB-mode (no alpha) image whose stored alpha byte is 0. -/
def imRGB : Img := { mode := Mode.RGB, w := 1, rows := [[⟨77, 88, 99, 0⟩]] }

/-- Witness for C10 at the 1x1 RGB-mode image. -/
theorem rgb_input_opaque_witness :
    imRGB.mode = Mode.RGB ∧ imRGB.wf ∧ 0 < imRGB.w ∧ 0 < imRGB.h ∧
    (((convertRGBA imRGB).pix 0 0).a = 255 ∧
     ((add_transparency imRGB stMatch).1.pix 0 0).a =
       (if ((convertRGBA imRGB).pix 0 0).r = (usedColor imRGB stMatch).r ∧
           ((convertRGBA imRGB).pix 0 0).g = (usedColor imRGB stMatch).g ∧
           ((convertRGBA imRGB).pix 0 0).b = (usedColor imRGB stMatch).b
        then 0 else 255)) :=
  ⟨rfl, by decide, by decide, by decide,
    rgb_input_opaque imRGB stMatch 0 0 rfl (by decide) (by decide) (by decide)⟩

/-- C6: with auto-detect on, the used colour is exactly the RGB triple of
the source pixel at (0,0) — its alpha and the supplied picker colour are
ignored — and that triple is written back into the colour picker. -/
theorem autodetect_used_color (im : Img) (st : WidgetState)
    (hd : st.detect = true) (hwf : im.wf) (hw : 0 < im.w) (hh : 0 < im.h) :
    usedColor im st = ⟨(im.pix 0 0).r, (im.pix 0 0).g, (im.pix 0 0).b⟩ ∧
    (add_transparency im st).2.picker =
      ⟨(im.pix 0 0).r, (im.pix 0 0).g, (im.pix 0 0).b⟩ := by
  have hyc : (0 : ℕ) < (convertRGBA im).h := by
    rw [convertRGBA_h]
    exact hh
  have hxc : (0 : ℕ) < ((convertRGBA im).rows.getD 0 []).length := by
    rw [row_len (convertRGBA_wf hwf) hyc, convertRGBA_w]
    exact hw
  have harr : ((imageArray im).getD 0 []).getD 0 ⟨0, 0, 0, 0⟩ =
      toQ ((convertRGBA im).pix 0 0) := by
    unfold imageArray
    exact getD_mapmap toQ ⟨0, 0, 0, 0⟩ ⟨0, 0, 0, 0⟩ _ 0 0 hyc hxc
  obtain ⟨hcr, hcg, hcb⟩ := convertRGBA_rgb_channels im hwf 0 0 hw hh
  have hdet : detectedColor (imageArray im) =
      ⟨(im.pix 0 0).r, (im.pix 0 0).g, (im.pix 0 0).b⟩ := by
    unfold detectedColor
    simp only
    rw [harr]
    simp only [toQ]
    rw [show ∀ c : Fin 256, toF8 (truncInt (qn c * 255)) = c from fun c => chan_qn c]
    rw [show ∀ c : Fin 256, toF8 (truncInt (qn c * 255)) = c from fun c => chan_qn c]
    rw [show ∀ c : Fin 256, toF8 (truncInt (qn c * 255)) = c from fun c => chan_qn c]
    rw [hcr, hcg, hcb]
  have hused : usedColor im st =
      ⟨(im.pix 0 0).r, (im.pix 0 0).g, (im.pix 0 0).b⟩ := by
    unfold usedColor
    rw [hd]
    simpa using hdet
  exact ⟨hused, by rw [add_transparency_picker, hused]⟩

/-- Concrete 1x1 image whose top-left pixel is RGB (10, 20, 30) with a
nonzero, non-opaque alpha. -/
def imDetect : Img := { mode := Mode.RGBA, w := 1, rows := [[⟨10, 20, 30, 7⟩]] }

/-- Widget state with auto-detect on and an unrelated picker colour. -/
def stDetect : WidgetState :=
  { inputTitle := "", outputTitle := "", maxText := none, spinner := 500,
    picker := ⟨1, 2, 3⟩, detect := true, matchV := false }

/-- Witness for C6: the detected colour is (10, 20, 30), not the picker's
(1, 2, 3), and it is written back into the picker. -/
theorem autodetect_used_color_witness :
    stDetect.detect = true ∧ imDetect.wf ∧ 0 < imDetect.w ∧ 0 < imDetect.h ∧
    (usedColor imDetect stDetect =
      ⟨(imDetect.pix 0 0).r, (imDetect.pix 0 0).g, (imDetect.pix 0 0).b⟩ ∧
     (add_transparency imDetect stDetect).2.picker =
      ⟨(imDetect.pix 0 0).r, (imDetect.pix 0 0).g, (imDetect.pix 0 0).b⟩) :=
  ⟨rfl, by decide, by decide, by decide,
    autodetect_used_color imDetect stDetect rfl (by decide) (by decide) (by decide)⟩

/-- Concrete 1x1 mid-gray opaque image for the fuzzy-mode evidence. -/
def imGray : Img := { mode := Mode.RGBA, w := 1, rows := [[⟨128, 128, 128, 255⟩]] }

/-- Widget state keying on white with the match checkbox UNSET. -/
def stFuzzy : WidgetState :=
  { inputTitle := "", outputTitle := "", maxText := none, spinner := 500,
    picker := ⟨255, 255, 255⟩, detect := false, matchV := false }

/-- C1 (code-bug evidence): with the match checkbox value `false`,
`add_transparency` still produces the exact-branch result — output alpha 255
for a mid-gray pixel against a white target — because line 121 tests the
truthy widget object instead of its value; the fuzzy branch of lines 127-139,
which implements the claimed Chebyshev fade, would give alpha 127 for the
same pixel and is unreachable. -/
theorem fuzzy_branch_dead :
    stFuzzy.matchV = false ∧
    (add_transparency imGray stFuzzy).1.rows = [[⟨128, 128, 128, 255⟩]] ∧
    writeRows (fuzzyRows (imageArray imGray) (pickerQ stFuzzy.picker)) =
      [[⟨128, 128, 128, 127⟩]] := by
  have hne : qn (128 : Fin 256) ≠ qn 255 := by
    rw [Ne, qn_inj]
    decide
  have hnz : qn (255 : Fin 256) ≠ 0 := by
    rw [Ne, qn_eq_zero]
    decide
  have habs : |qn (128 : Fin 256) - qn 255| = qn 127 := by
    unfold qn
    rw [show (128 : Fin 256).val = 128 from rfl,
        show (255 : Fin 256).val = 255 from rfl,
        show (127 : Fin 256).val = 127 from rfl]
    norm_num
  have him : imageArray imGray = [[toQ ⟨128, 128, 128, 255⟩]] := rfl
  have hu : usedColor imGray stFuzzy = ⟨255, 255, 255⟩ := by decide
  refine ⟨rfl, ?_, ?_⟩
  · rw [add_transparency_img]
    show writeRows (exactRows (imageArray imGray)
      (pickerQ (usedColor imGray stFuzzy))) = _
    rw [hu, him]
    simp only [writeRows, exactRows, List.map, pickerQ, toQ]
    simp [hne, hnz, chan_qn, chan_one]
  · rw [him, show stFuzzy.picker = ⟨255, 255, 255⟩ from rfl]
    simp only [writeRows, fuzzyRows, List.map, pickerQ, toQ]
    simp [habs, max_self, chan_qn]

/-- C3 counterexample: the code's write-out quantizer `chan` truncates, not
rounds: at the normalized value 1/510 (which scales to 0.5) it produces 0
while the spec's round-to-nearest produces 1. -/
theorem writeout_truncates :
    (0 : ℚ) ≤ 1/510 ∧ (1 : ℚ)/510 ≤ 1 ∧
    chan (1/510) = 0 ∧ chanRoundSpec (1/510) = 1 ∧
    chan (1/510) ≠ chanRoundSpec (1/510) := by
  have h1 : (1 : ℚ)/510 * 255 = 1/2 := by norm_num
  have htr : truncInt ((1 : ℚ)/510 * 255) = 0 := by
    rw [h1]
    unfold truncInt
    rw [if_pos (by norm_num)]
    rw [Int.floor_eq_zero_iff.mpr (by norm_num [Set.mem_Ico])]
  have hrd : round ((1 : ℚ)/510 * 255) = 1 := by
    rw [h1, round_eq]
    norm_num
  have hc : chan (1/510) = 0 := by
    unfold chan
    rw [htr]
    decide
  have hr : chanRoundSpec (1/510) = 1 := by
    unfold chanRoundSpec
    rw [hrd]
    decide
  refine ⟨by norm_num, by norm_num, hc, hr, ?_⟩
  rw [hc, hr]
  decide

/-- C3 amended: write-out re-quantizes by truncation toward zero
(`astype int`), not rounding; but every channel value the keyer actually
produces — an exact multiple of 1/255 from the pass-through RGB channels, or
the exact alphas 0 and 1 — scales back to an exact integer, on which
truncation and rounding coincide, so outputs of processed images agree with
the round-to-nearest description. -/
theorem writeout_trunc_round_agree (c : Fin 256) :
    chan (qn c) = c ∧ chanRoundSpec (qn c) = c ∧
    chan 0 = chanRoundSpec 0 ∧ chan 1 = chanRoundSpec 1 := by
  refine ⟨chan_qn c, chanRoundSpec_qn c, ?_, ?_⟩
  · have hz : (0 : ℚ) = qn 0 := by
      show (0 : ℚ) = ((0 : Fin 256).val : ℚ) / 255
      norm_num
    rw [hz, chan_qn, chanRoundSpec_qn]
  · have ho : (1 : ℚ) = qn 255 := by
      show (1 : ℚ) = ((255 : Fin 256).val : ℚ) / 255
      rw [show (255 : Fin 256).val = 255 from rfl]
      norm_num
    rw [ho, chan_qn, chanRoundSpec_qn]

end SquarifyApp
